import Mathlib

/-!
Verification of the SyntraFoundation PDF-ingestion pipeline
(`tools/ingest/pdf_ingestor_gemini.py`): the chunker, the
primary/fallback summary chain, the VALON archive append, the
per-document processing flow and the result comparator, shallowly
embedded as pure Lean functions over `List Char` texts.
-/

set_option maxRecDepth 4000

namespace SyntraPdf

/-- Python slice `xs[a:b]` on a list (for `0 ≤ a ≤ b`): drop `a`
elements, then take `b - a`. -/
def pySlice {α : Type} (xs : List α) (a b : Nat) : List α :=
  (xs.drop a).take (b - a)

/-- The chunking loop of `process_pdf` (lines 104-108):
`while start < len(content): end = min(start + chunk_size, len(content));
chunks.append(content[start:end]); start += chunk_size - overlap`.
Embedded with explicit fuel: `none` means the fuel ran out before the
cursor reached the end of the text (with `chunk_size - overlap = 0` the
Python loop never advances, which the fuel model reports honestly). -/
def chunkLoop {α : Type} (chunk_size overlap : Nat) (content : List α) :
    Nat → Nat → Option (List (List α))
  | 0, start => if start < content.length then none else some []
  | fuel + 1, start =>
    if start < content.length then
      match chunkLoop chunk_size overlap content fuel (start + (chunk_size - overlap)) with
      | none => none
      | some rest =>
          some (pySlice content start (min (start + chunk_size) content.length) :: rest)
    else some []

/-- The chunk list produced by `process_pdf` for a given text: run the
loop from cursor `0` with fuel `length + 1`, which suffices whenever
`overlap < chunk_size` (proved in `chunkLoop_isSome_of_le`). -/
def chunks {α : Type} (chunk_size overlap : Nat) (content : List α) : List (List α) :=
  (chunkLoop chunk_size overlap content (content.length + 1) 0).getD []

/-- Concatenation of the non-overlapping portions of a chunk list: the
first `adv = chunk_size - overlap` elements of every non-final chunk,
then the final chunk whole. -/
def nonOverlapJoin {α : Type} (adv : Nat) : List (List α) → List α
  | [] => []
  | [c] => c
  | c :: c2 :: rest => c.take adv ++ nonOverlapJoin adv (c2 :: rest)

/-- Two consecutive chunks overlap by exactly `ov` elements: the last
`ov` elements of the first equal the first `ov` elements of the second,
and both chunks have at least `ov` elements. -/
def overlapsBy {α : Type} (ov : Nat) (a b : List α) : Prop :=
  ov ≤ a.length ∧ ov ≤ b.length ∧ a.drop (a.length - ov) = b.take ov

/-- The successive cursor values visited by the chunking loop: same fuel
discipline as `chunkLoop`, recording the cursor of each produced chunk. -/
def chunkStartsF (adv L : Nat) : Nat → Nat → List Nat
  | 0, _ => []
  | fuel + 1, s => if s < L then s :: chunkStartsF adv L fuel (s + adv) else []

/-- The cursors of all chunks produced for a text of length `L`, starting
from `0` with the fuel used by `chunks`. -/
def chunkStarts (adv L : Nat) : List Nat :=
  chunkStartsF adv L (L + 1) 0

/-- The test `leadsWith needle hay` is true when `needle` occurs at the very start of
`hay` (character-wise). -/
def leadsWith : List Char → List Char → Bool
  | [], _ => true
  | _ :: _, [] => false
  | a :: as, b :: bs => a == b && leadsWith as bs

/-- Python's substring test `needle in hay`: `needle` occurs at some
position of `hay`. -/
def containsSub (hay needle : List Char) : Bool :=
  (List.range (hay.length + 1)).any (fun i => leadsWith needle (hay.drop i))

/-- The error test of `process_pdf` line 114:
`"Error:" in response or "timed out" in response` (case-sensitive). -/
def isErrorMarked (response : List Char) : Bool :=
  containsSub response ("Error:").data || containsSub response ("timed out").data

/-- Modelled from the spec: the spec's wording of a "recognized error
marker" — an error-prefix string of the form "[ERROR: ...]" or
"Error: ...", or a timeout indicator. Used only to compare the spec's
wording with the code's actual substring check `isErrorMarked`. -/
def specRecognizedErrorMarker (response : List Char) : Bool :=
  containsSub response ("[ERROR:").data || containsSub response ("Error:").data ||
    containsSub response ("timed out").data

/-- Which provider's answer was kept for a chunk. -/
inductive Provider where
  | gemini
  | chatgpt
deriving DecidableEq

/-- The fallback prompt built around the chunk in `process_pdf` line 116. -/
def fallbackPrompt : List Char :=
  ("Summarize and extract key points from this section of a vehicle service manual:\n\n").data

/-- The per-chunk summary step of `process_pdf` (lines 113-116): query the
primary provider; if the response contains "Error:" or "timed out", discard
it and use the secondary provider's answer to the fallback prompt, verbatim. -/
def chunkSummary (analyze : List Char → Nat → Nat → List Char)
    (chatgpt : List Char → List Char) (chunk : List Char) (i n : Nat) :
    List Char × Provider :=
  let response := analyze chunk i n
  if isErrorMarked response then (chatgpt (fallbackPrompt ++ chunk), Provider.chatgpt)
  else (response, Provider.gemini)

/-- Python `str.strip` whitespace class. -/
def isPySpace (c : Char) : Bool :=
  c = ' ' || c = '\t' || c = '\n' || c = '\r' || c = Char.ofNat 11 || c = Char.ofNat 12

/-- Python `response.strip()`: remove leading and trailing whitespace. -/
def pyStrip (s : List Char) : List Char :=
  ((s.dropWhile isPySpace).reverse.dropWhile isPySpace).reverse

/-- The per-chunk banner `f"--- Chunk EXPR ---\n"` of `process_pdf` line 117. -/
def chunkHeader (k : Nat) : List Char :=
  ("--- Chunk ").data ++ (Nat.repr k).data ++ (" ---\n").data

/-- A `symbolic_events` record as written by `update_valon_archive`:
the reflection payload comes from the external Gemini bridge, so its shape
is kept abstract as a type parameter. -/
structure SymbolicEvent (ρ : Type) where
  source : List Char
  reflected : ρ
  timestamp : List Char
deriving DecidableEq

/-- The VALON archive document with its four named top-level sequences.
The code never inspects the other three logs, so their element shape is a
type parameter. -/
structure Archive (ρ δ : Type) where
  symbolic_events : List (SymbolicEvent ρ)
  drift_logs : List δ
  reasoning_blends : List δ
  dream_logs : List δ
deriving DecidableEq

/-- The default archive used when the archive file is absent
(`update_valon_archive` line 83): four empty sequences. -/
def emptyArchive {ρ δ : Type} : Archive ρ δ :=
  { symbolic_events := [], drift_logs := [], reasoning_blends := [], dream_logs := [] }

/-- The function `update_valon_archive` (lines 78-91): read the archive if present
(default to the four empty sequences), append a new
`{source, reflected, timestamp}` record to `symbolic_events`, and rewrite
the whole document. `prior = none` models the archive file being absent. -/
def update_valon_archive {ρ δ : Type} (prior : Option (Archive ρ δ))
    (filename : List Char) (reflection : ρ) (now : List Char) : Archive ρ δ :=
  let archive := match prior with
    | some a => a
    | none => emptyArchive
  { archive with
      symbolic_events := archive.symbolic_events ++
        [{ source := filename, reflected := reflection, timestamp := now }] }

/-- The MODI result record built by `process_pdf` (lines 125-133), with the
optional `hybrid_uid` added when the memory-engine link returns one. -/
structure ResultEntry (ρ : Type) where
  source : List Char
  timestamp : List Char
  content_sample : List Char
  full_content_length : Nat
  summary : List Char
  valon_reflection : ρ
  processor : List Char
  hybrid_uid : Option (List Char)
deriving DecidableEq

/-- The observable effects of one `process_pdf` run: its return value, the
error-log append, the chunks and summaries it built, the MODI result entry
and VALON summary file it wrote, and the archive state after the run. -/
structure ProcessOutcome (ρ δ : Type) where
  success : Bool
  errorLogged : Option (List Char)
  chunksUsed : List (List Char)
  summaries : List (List Char)
  modiEntry : Option (ResultEntry ρ)
  valonFile : Option (List Char × ρ)
  archiveAfter : Option (Archive ρ δ)
deriving DecidableEq

/-- The function `process_pdf` (lines 93-158) as a pure function of its collaborators:
`analyze` is `gemini_bridge.analyze_document_chunk`, `chatgpt` is
`query_chatgpt`, `reflect` is the VALON reflection call, `addMemoryNode`
the hybrid memory link (`none` models a falsy uid), `extracted` the result
of text extraction (`none` models an extraction exception). Python's
`if not content` guard fails the document when extraction returned `None`
or an empty string. -/
def process_pdf {ρ δ : Type} (analyze : List Char → Nat → Nat → List Char)
    (chatgpt : List Char → List Char) (reflect : List Char → ρ)
    (addMemoryNode : ResultEntry ρ → Option (List Char))
    (priorArchive : Option (Archive ρ δ))
    (extracted : Option (List Char)) (filename now : List Char) :
    ProcessOutcome ρ δ :=
  let contentOk := match extracted with
    | none => none
    | some c => if c.isEmpty then none else some c
  match contentOk with
  | none =>
    { success := false, errorLogged := some ("Failed to extract text").data,
      chunksUsed := [], summaries := [], modiEntry := none, valonFile := none,
      archiveAfter := priorArchive }
  | some content =>
    let cl := chunks 3000 500 content
    let n := cl.length
    let summaries := cl.enum.map (fun p =>
      chunkHeader (p.1 + 1) ++ pyStrip (chunkSummary analyze chatgpt p.2 p.1 n).1)
    let summary := List.intercalate (("\n\n").data) summaries
    let reflection := reflect content
    let entry0 : ResultEntry ρ :=
      { source := filename, timestamp := now, content_sample := content.take 5000,
        full_content_length := content.length, summary := summary,
        valon_reflection := reflection, processor := ("gemini").data,
        hybrid_uid := none }
    let entry := match addMemoryNode entry0 with
      | some uid => { entry0 with hybrid_uid := some uid }
      | none => entry0
    { success := true, errorLogged := none, chunksUsed := cl,
      summaries := summaries, modiEntry := some entry,
      valonFile := some (summary, reflection),
      archiveAfter := some (update_valon_archive priorArchive filename reflection now) }

/-- The reflection sub-record read by `compare_results` with `.get`
defaults: both fields may be absent. -/
structure ValonCmp where
  symbolic_terms : Option (List (List Char))
  emotions : Option (List (List Char))
deriving DecidableEq

/-- A persisted result record as read by `compare_results`: every field is
accessed with a `.get` default, so each may be absent. -/
structure CmpRecord where
  processor : Option (List Char)
  summary : Option (List Char)
  valon_reflection : Option ValonCmp
deriving DecidableEq

/-- The diagnostic lines printed by `compare_results`, with their payloads
kept structured. -/
inductive CmpLine where
  | headerLine : CmpLine
  | processors : List Char → List Char → CmpLine
  | summaryLengths : Nat → Nat → CmpLine
  | valonHeader : CmpLine
  | symbolicTerms : List (List Char) → List (List Char) → CmpLine
  | emotionsLine : List (List Char) → List (List Char) → CmpLine
  | compareError : CmpLine
deriving DecidableEq

/-- The record default for an absent `valon_reflection` field. -/
def emptyValonCmp : ValonCmp := { symbolic_terms := none, emotions := none }

/-- The function `compare_results` (lines 183-213): load both records (a `none` input
models a missing or unreadable file, whose exception the function catches),
report the fixed set of field comparisons, and return `true`; any failure is
reported as a diagnostic line and returned as `false`. -/
def compare_results (original gemini : Option CmpRecord) : Bool × List CmpLine :=
  match original, gemini with
  | some o, some g =>
    (true,
      [CmpLine.headerLine,
       CmpLine.processors (o.processor.getD (("mistral").data))
         (g.processor.getD (("gemini").data)),
       CmpLine.summaryLengths (o.summary.getD []).length (g.summary.getD []).length,
       CmpLine.valonHeader,
       CmpLine.symbolicTerms
         ((o.valon_reflection.getD emptyValonCmp).symbolic_terms.getD [])
         ((g.valon_reflection.getD emptyValonCmp).symbolic_terms.getD []),
       CmpLine.emotionsLine
         ((o.valon_reflection.getD emptyValonCmp).emotions.getD [])
         ((g.valon_reflection.getD emptyValonCmp).emotions.getD [])])
  | _, _ => (false, [CmpLine.compareError])

/-! ### Basic loop lemmas -/

lemma chunkLoop_stop {α : Type} (cs ov : Nat) (T : List α) (fuel s : Nat)
    (h : T.length ≤ s) : chunkLoop cs ov T fuel s = some [] := by
  cases fuel with
  | zero => simp [chunkLoop, Nat.not_lt.mpr h]
  | succ f => simp [chunkLoop, Nat.not_lt.mpr h]

lemma chunkLoop_isSome_of_le {α : Type} (cs ov : Nat) (T : List α)
    (hadv : 1 ≤ cs - ov) :
    ∀ fuel s, T.length ≤ s + fuel → (chunkLoop cs ov T fuel s).isSome = true := by
  intro fuel
  induction fuel with
  | zero =>
    intro s hs
    rw [chunkLoop_stop cs ov T 0 s (by omega)]
    rfl
  | succ f ih =>
    intro s hs
    by_cases hlt : s < T.length
    · have hrec := ih (s + (cs - ov)) (by omega)
      rw [chunkLoop]
      simp only [hlt, if_true]
      cases hmatch : chunkLoop cs ov T f (s + (cs - ov)) with
      | none => rw [hmatch] at hrec; simp at hrec
      | some rest => rfl
    · rw [chunkLoop_stop cs ov T (f + 1) s (by omega)]
      rfl

lemma chunkLoop_some_nil {α : Type} {cs ov : Nat} {T : List α} {fuel s : Nat}
    (h : chunkLoop cs ov T fuel s = some []) : T.length ≤ s := by
  by_contra hlt
  push_neg at hlt
  cases fuel with
  | zero => simp [chunkLoop, hlt] at h
  | succ f =>
    rw [chunkLoop] at h
    simp only [hlt, if_true] at h
    cases hmatch : chunkLoop cs ov T f (s + (cs - ov)) with
    | none => rw [hmatch] at h; simp at h
    | some rest => rw [hmatch] at h; simp at h

lemma chunkLoop_some_cons {α : Type} {cs ov : Nat} {T : List α} {fuel s : Nat}
    {c : List α} {rest : List (List α)}
    (h : chunkLoop cs ov T fuel s = some (c :: rest)) :
    s < T.length ∧ c = pySlice T s (min (s + cs) T.length) ∧
      ∃ f, fuel = f + 1 ∧ chunkLoop cs ov T f (s + (cs - ov)) = some rest := by
  cases fuel with
  | zero =>
    by_cases hlt : s < T.length
    · simp [chunkLoop, hlt] at h
    · simp [chunkLoop, hlt] at h
  | succ f =>
    by_cases hlt : s < T.length
    · rw [chunkLoop] at h
      simp only [hlt, if_true] at h
      cases hmatch : chunkLoop cs ov T f (s + (cs - ov)) with
      | none => rw [hmatch] at h; simp at h
      | some rest2 =>
        rw [hmatch] at h
        simp only [Option.some.injEq, List.cons.injEq] at h
        exact ⟨hlt, h.1.symm, f, rfl, by rw [hmatch, h.2]⟩
    · simp [chunkLoop, hlt] at h

/-- The slice appended at cursor `s` (for `s < length`) is
`(T.drop s).take cs`. -/
lemma slice_at_cursor {α : Type} (cs : Nat) (T : List α) (s : Nat) :
    pySlice T s (min (s + cs) T.length) = (T.drop s).take cs := by
  unfold pySlice
  rcases Nat.le_total (s + cs) T.length with hle | hle
  · rw [min_eq_left hle]
    congr 1
    omega
  · rw [min_eq_right hle]
    rcases Nat.le_total s T.length with hs | hs
    · apply List.ext_getElem
      · simp; omega
      · intro i h1 h2; simp
    · rw [List.drop_eq_nil_of_le hs]
      simp

lemma length_slice_at_cursor {α : Type} (cs : Nat) (T : List α) (s : Nat)
    (hs : s < T.length) :
    (pySlice T s (min (s + cs) T.length)).length = min cs (T.length - s) := by
  rw [slice_at_cursor]
  simp

/-- The part of the chunk at cursor `s` after its first `chunk_size - overlap`
elements is exactly the corresponding prefix of the chunk at the next cursor
`s + (chunk_size - overlap)`: consecutive chunks agree on their shared window. -/
lemma slice_overlap {α : Type} (cs ov : Nat) (T : List α) (s : Nat)
    (hov : ov < cs) (hs2 : s + (cs - ov) < T.length) :
    (pySlice T s (min (s + cs) T.length)).drop (cs - ov) =
      (pySlice T (s + (cs - ov)) (min (s + (cs - ov) + cs) T.length)).take
        ((pySlice T s (min (s + cs) T.length)).length - (cs - ov)) := by
  rw [slice_at_cursor, slice_at_cursor]
  apply List.ext_getElem
  · simp
    omega
  · intro i h1 h2
    simp only [List.getElem_drop, List.getElem_take]
    simp [Nat.add_assoc]

/-- Correctness of the loop: for any run that exits normally, gluing the
non-overlapping portions of the produced chunks yields the rest of the text
from the starting cursor. -/
lemma chunkLoop_join {α : Type} (cs ov : Nat) (T : List α) (hadv : 1 ≤ cs - ov) :
    ∀ fuel s cl, chunkLoop cs ov T fuel s = some cl →
      nonOverlapJoin (cs - ov) cl = T.drop s := by
  intro fuel
  induction fuel with
  | zero =>
    intro s cl h
    by_cases hlt : s < T.length
    · simp [chunkLoop, hlt] at h
    · push_neg at hlt
      rw [chunkLoop_stop cs ov T 0 s hlt] at h
      injection h with h
      subst h
      simp only [nonOverlapJoin]
      exact (List.drop_eq_nil_of_le hlt).symm
  | succ f ih =>
    intro s cl h
    cases cl with
    | nil =>
      have hle := chunkLoop_some_nil h
      simp only [nonOverlapJoin]
      exact (List.drop_eq_nil_of_le hle).symm
    | cons c rest =>
      obtain ⟨hs, hc, f', hf, hrec⟩ := chunkLoop_some_cons h
      have hff : f' = f := by omega
      subst hff
      cases rest with
      | nil =>
        have hstop := chunkLoop_some_nil hrec
        subst hc
        simp only [nonOverlapJoin]
        rw [slice_at_cursor]
        exact List.take_of_length_le (by simp; omega)
      | cons c2 rest2 =>
        have hIH := ih (s + (cs - ov)) (c2 :: rest2) hrec
        subst hc
        simp only [nonOverlapJoin]
        rw [hIH, slice_at_cursor, List.take_take,
          min_eq_left (by omega : cs - ov ≤ cs), ← List.drop_drop]
        exact List.take_append_drop _ _

/-- Every normally-exiting loop run produces a chunk list in which each
consecutive pair agrees on the shared window, and overlaps by exactly
`overlap` elements whenever the earlier chunk has the full `chunk_size`. -/
lemma chunkLoop_chain {α : Type} (cs ov : Nat) (T : List α) (hov : ov < cs) :
    ∀ fuel s cl, chunkLoop cs ov T fuel s = some cl →
      List.Chain' (fun a b => a.drop (cs - ov) = b.take (a.length - (cs - ov)) ∧
        (a.length = cs → overlapsBy ov a b)) cl := by
  intro fuel
  induction fuel with
  | zero =>
    intro s cl h
    by_cases hlt : s < T.length
    · simp [chunkLoop, hlt] at h
    · push_neg at hlt
      rw [chunkLoop_stop cs ov T 0 s hlt] at h
      injection h with h
      subst h
      exact List.chain'_nil
  | succ f ih =>
    intro s cl h
    cases cl with
    | nil => exact List.chain'_nil
    | cons c rest =>
      obtain ⟨hs, hc, f', hf, hrec⟩ := chunkLoop_some_cons h
      have hff : f' = f := by omega
      subst hff
      have htail := ih (s + (cs - ov)) rest hrec
      cases rest with
      | nil => exact List.chain'_singleton _
      | cons c2 rest2 =>
        obtain ⟨hs2, hc2, _⟩ := chunkLoop_some_cons hrec
        refine List.Chain'.cons ?_ htail
        subst hc
        subst hc2
        refine ⟨slice_overlap cs ov T s hov hs2, ?_⟩
        intro hlen
        have hLs : s + cs ≤ T.length := by
          rw [length_slice_at_cursor cs T s hs] at hlen
          omega
        refine ⟨?_, ?_, ?_⟩
        · rw [hlen]; omega
        · rw [length_slice_at_cursor cs T _ hs2]; omega
        · have h1 := slice_overlap cs ov T s hov hs2
          rw [hlen] at h1 ⊢
          have hco : cs - (cs - ov) = ov := by omega
          rw [hco] at h1
          exact h1

/-- With `overlap < chunk_size`, fuel `length + 1` always suffices, and
`chunks` is exactly the normal result of the loop. -/
lemma chunks_eq_some {α : Type} (cs ov : Nat) (T : List α) (hov : ov < cs) :
    chunkLoop cs ov T (T.length + 1) 0 = some (chunks cs ov T) := by
  have h := chunkLoop_isSome_of_le cs ov T (by omega) (T.length + 1) 0 (by omega)
  cases hm : chunkLoop cs ov T (T.length + 1) 0 with
  | none => rw [hm] at h; simp at h
  | some cl => simp [chunks, hm]

/-- Every chunk list produced by a normally-exiting loop run is the list of
window slices taken at the visited cursors. -/
lemma chunkLoop_map_starts {α : Type} (cs ov : Nat) (T : List α) :
    ∀ fuel s cl, chunkLoop cs ov T fuel s = some cl →
      cl = (chunkStartsF (cs - ov) T.length fuel s).map (fun t => (T.drop t).take cs) := by
  intro fuel
  induction fuel with
  | zero =>
    intro s cl h
    by_cases hlt : s < T.length
    · simp [chunkLoop, hlt] at h
    · rw [chunkLoop_stop cs ov T 0 s (by omega)] at h
      injection h with h
      subst h
      simp [chunkStartsF, hlt]
  | succ f ih =>
    intro s cl h
    by_cases hlt : s < T.length
    · cases cl with
      | nil => have := chunkLoop_some_nil h; omega
      | cons c rest =>
        obtain ⟨hs, hc, f', hf, hrec⟩ := chunkLoop_some_cons h
        have hff : f' = f := by omega
        subst hff
        have htail := ih (s + (cs - ov)) rest hrec
        subst hc
        rw [slice_at_cursor]
        simp [chunkStartsF, hlt, htail]
    · rw [chunkLoop_stop cs ov T (f + 1) s (by omega)] at h
      injection h with h
      subst h
      simp [chunkStartsF, hlt]

/-- The chunk list is the window slice at each cursor in `chunkStarts`. -/
lemma chunks_eq_map {α : Type} (cs ov : Nat) (T : List α) (hov : ov < cs) :
    chunks cs ov T =
      (chunkStarts (cs - ov) T.length).map (fun t => (T.drop t).take cs) :=
  chunkLoop_map_starts cs ov T (T.length + 1) 0 (chunks cs ov T)
    (chunks_eq_some cs ov T hov)

/-! ### Chunker claim theorems -/

/-- Claim C5: for every text `T` and parameters with `0 < overlap < chunk_size`,
concatenating the non-overlapping portions of all chunks (the first
`chunk_size - overlap` characters of each non-final chunk, then the final
chunk whole) reconstructs `T` exactly. -/
theorem chunks_reconstruct {α : Type} (cs ov : Nat) (T : List α)
    (h1 : 0 < ov) (h2 : ov < cs) :
    nonOverlapJoin (cs - ov) (chunks cs ov T) = T := by
  have h := chunkLoop_join cs ov T (by omega) (T.length + 1) 0 (chunks cs ov T)
    (chunks_eq_some cs ov T h2)
  simpa using h

/-- Witness for C5 at a concrete input: text `[0,1,2,3]`, chunk size 3,
overlap 1. -/
theorem chunks_reconstruct_witness :
    nonOverlapJoin (3 - 1) (chunks 3 1 ([0, 1, 2, 3] : List Nat)) = [0, 1, 2, 3] :=
  chunks_reconstruct 3 1 ([0, 1, 2, 3] : List Nat) (by decide) (by decide)

/-- Claim C3, counterexample: with text `[0,1,2]`, chunk size 4, overlap 2
(valid parameters: `0 < 2 < 4`), the chunker produces the two consecutive
chunks `[0,1,2]` and `[2]`, which share only one element — they do not
overlap by exactly `overlap = 2` characters, refuting "every pair of
consecutive chunks overlaps by exactly `overlap` characters". -/
theorem chunks_exact_overlap_cex :
    (0 : Nat) < 2 ∧ (2 : Nat) < 4 ∧
      chunks 4 2 ([0, 1, 2] : List Nat) = [[0, 1, 2], [2]] ∧
      ¬ overlapsBy 2 ([0, 1, 2] : List Nat) [2] := by
  refine ⟨by decide, by decide, by decide, ?_⟩
  intro h
  have := h.2.1
  simp at this

/-- Claim C3 as amended: the chunks cover all of `T` (their non-overlapping
portions concatenate back to `T`), and each pair of consecutive chunks agrees
on its shared window — the part of the earlier chunk past its first
`chunk_size - overlap` characters is exactly the corresponding prefix of the
later chunk; in particular, whenever the earlier chunk has the full
`chunk_size` length the two chunks overlap by exactly `overlap` characters.
A non-final chunk that is shorter than `chunk_size` (which happens when the
text runs out mid-window) overlaps its successor by correspondingly fewer
characters. -/
theorem chunks_overlap_amended {α : Type} (cs ov : Nat) (T : List α)
    (h1 : 0 < ov) (h2 : ov < cs) :
    nonOverlapJoin (cs - ov) (chunks cs ov T) = T ∧
      List.Chain' (fun a b => a.drop (cs - ov) = b.take (a.length - (cs - ov)) ∧
        (a.length = cs → overlapsBy ov a b)) (chunks cs ov T) := by
  refine ⟨chunks_reconstruct cs ov T h1 h2, ?_⟩
  exact chunkLoop_chain cs ov T h2 (T.length + 1) 0 (chunks cs ov T)
    (chunks_eq_some cs ov T h2)

/-- Witness for the amended C3 at a concrete input: text `[0,1,2,3,4]`,
chunk size 4, overlap 2. -/
theorem chunks_overlap_amended_witness :
    nonOverlapJoin (4 - 2) (chunks 4 2 ([0, 1, 2, 3, 4] : List Nat)) = [0, 1, 2, 3, 4] ∧
      List.Chain' (fun a b => a.drop (4 - 2) = b.take (a.length - (4 - 2)) ∧
        (a.length = 4 → overlapsBy 2 a b)) (chunks 4 2 ([0, 1, 2, 3, 4] : List Nat)) :=
  chunks_overlap_amended 4 2 ([0, 1, 2, 3, 4] : List Nat) (by decide) (by decide)

/-- Claim C4: for a text of length 4500 with `chunk_size = 3000` and
`overlap = 500`, the chunker produces exactly two chunks: the slice
`[0, 3000)` and the slice `[2500, 4500)` of the text. -/
theorem chunks_4500 :
    chunks 3000 500 (List.range 4500) =
      [pySlice (List.range 4500) 0 3000, pySlice (List.range 4500) 2500 4500] ∧
      (chunks 3000 500 (List.range 4500)).length = 2 := by
  have hmap := chunks_eq_map 3000 500 (List.range 4500) (by omega)
  rw [List.length_range] at hmap
  have hsub : (3000 - 500 : Nat) = 2500 := rfl
  rw [hsub] at hmap
  have hstarts : chunkStarts 2500 4500 = [0, 2500] := by decide
  rw [hstarts] at hmap
  have h2 : pySlice (List.range 4500) 2500 4500 =
      ((List.range 4500).drop 2500).take 3000 := by
    unfold pySlice
    rw [List.take_of_length_le (by simp), List.take_of_length_le (by simp)]
  constructor
  · rw [hmap]
    simp [pySlice, h2.symm]
  · rw [hmap]
    simp

/-- Claim C7: whenever `chunk_size - overlap > 0`, the chunking loop
terminates: fuel `len(T) + 1` is enough for the loop to exit normally from
cursor `0`, and from any cursor at or past `len(T)` the loop stops at once
with no further chunks. -/
theorem chunkLoop_terminates {α : Type} (cs ov : Nat) (T : List α)
    (h : 0 < cs - ov) :
    (chunkLoop cs ov T (T.length + 1) 0).isSome = true ∧
      ∀ fuel s, T.length ≤ s → chunkLoop cs ov T fuel s = some [] := by
  refine ⟨chunkLoop_isSome_of_le cs ov T (by omega) (T.length + 1) 0 (by omega), ?_⟩
  intro fuel s hs
  exact chunkLoop_stop cs ov T fuel s hs

/-- Witness for C7 at a concrete input: text `['a']`, chunk size 3, overlap 1. -/
theorem chunkLoop_terminates_witness :
    (chunkLoop 3 1 (['a'] : List Char) ((['a'] : List Char).length + 1) 0).isSome = true ∧
      ∀ fuel s, (['a'] : List Char).length ≤ s →
        chunkLoop 3 1 (['a'] : List Char) fuel s = some [] :=
  chunkLoop_terminates 3 1 (['a'] : List Char) (by decide)

/-- Claim C9, counterexample: with the pipeline's parameters
`chunk_size = 3000`, `overlap = 500`, a non-empty text of length 2600 —
strictly shorter than `chunk_size` — produces two chunks, not one,
because after the first window the cursor (2500) is still below 2600. -/
theorem chunks_short_text_cex :
    (List.range 2600).length < 3000 ∧ List.range 2600 ≠ [] ∧
      (chunks 3000 500 (List.range 2600)).length = 2 := by
  have hmap := chunks_eq_map 3000 500 (List.range 2600) (by omega)
  rw [List.length_range] at hmap
  have hsub : (3000 - 500 : Nat) = 2500 := rfl
  rw [hsub] at hmap
  have hstarts : chunkStarts 2500 2600 = [0, 2500] := by decide
  rw [hstarts] at hmap
  refine ⟨by simp, by simp, ?_⟩
  rw [hmap]
  simp

/-- Claim C9 as amended: for every non-empty text of length at most
`chunk_size - overlap`, the chunker yields exactly one chunk, equal to the
whole text. -/
theorem chunks_single {α : Type} (cs ov : Nat) (T : List α)
    (h1 : 0 < ov) (h2 : ov < cs) (h3 : T ≠ []) (h4 : T.length ≤ cs - ov) :
    chunks cs ov T = [T] := by
  have hlen : 0 < T.length := List.length_pos.mpr h3
  have hstep : chunkLoop cs ov T (T.length + 1) 0 = some [T] := by
    rw [chunkLoop]
    simp only [hlen, if_true]
    rw [chunkLoop_stop cs ov T T.length (0 + (cs - ov)) (by omega)]
    have hmin : min (0 + cs) T.length = T.length := by omega
    rw [hmin]
    unfold pySlice
    simp
  simp [chunks, hstep]

/-- Witness for the amended C9 at a concrete input: text `[0,1]` (length 2),
chunk size 3, overlap 1. -/
theorem chunks_single_witness : chunks 3 1 ([0, 1] : List Nat) = [[0, 1]] :=
  chunks_single 3 1 ([0, 1] : List Nat) (by decide) (by decide) (by decide) (by decide)

/-! ### Summary-provider fallback (claim C1) -/

/-- Claim C1, counterexample: the response "[ERROR: HTTP 500]" carries the
claim's "[ERROR: ...]" error marker, yet the pipeline's case-sensitive check
(substring "Error:" or "timed out") does not fire: the primary response is
kept verbatim and the secondary provider's answer is not used. -/
theorem chunkSummary_fallback_cex :
    specRecognizedErrorMarker (("[ERROR: HTTP 500]").data) = true ∧
      chunkSummary (fun _ _ _ => ("[ERROR: HTTP 500]").data)
        (fun _ => ("a fine summary").data) ([] : List Char) 0 1 =
        (("[ERROR: HTTP 500]").data, Provider.gemini) ∧
      ("[ERROR: HTTP 500]").data ≠ ("a fine summary").data :=
  ⟨by decide, by decide, by decide⟩

/-- Claim C1 as amended: if the primary provider's response contains the
substring "Error:" or the substring "timed out" (the markers the code
actually recognizes — a "[ERROR: ...]" prefix alone is not one), the
pipeline discards the response, invokes the secondary provider on the
fallback prompt derived from the same chunk, and uses the secondary
provider's result verbatim, even if that result is itself an error string. -/
theorem chunkSummary_fallback (analyze : List Char → Nat → Nat → List Char)
    (chatgpt : List Char → List Char) (chunk : List Char) (i n : Nat)
    (h : isErrorMarked (analyze chunk i n) = true) :
    chunkSummary analyze chatgpt chunk i n =
      (chatgpt (fallbackPrompt ++ chunk), Provider.chatgpt) := by
  simp only [chunkSummary, h, if_true]

/-- Witness for the amended C1: a primary response "Error: primary failed"
triggers fallback, and the secondary provider's answer is used even though
it is itself an error string. -/
theorem chunkSummary_fallback_witness :
    isErrorMarked ((fun (_ : List Char) (_ _ : Nat) => ("Error: primary failed").data)
        ([] : List Char) 0 1) = true ∧
      chunkSummary (fun _ _ _ => ("Error: primary failed").data)
        (fun _ => ("Error: secondary also failed").data) ([] : List Char) 0 1 =
        (("Error: secondary also failed").data, Provider.chatgpt) :=
  ⟨by decide, chunkSummary_fallback (fun _ _ _ => ("Error: primary failed").data)
    (fun _ => ("Error: secondary also failed").data) [] 0 1 (by decide)⟩

/-! ### Empty-document handling (claim C2) -/

/-- Claim C2, counterexample: for a document whose extracted text is empty,
`process_pdf` takes the `if not content` failure path — it logs an
extraction error, writes no result entry and no VALON file, and reports the
document as failed — refuting "a ResultEntry is still written (the document
is not treated as failed)". -/
theorem process_pdf_empty_text_cex :
    process_pdf (fun _ _ _ => ([] : List Char)) (fun _ => ([] : List Char))
        (fun _ => (0 : Nat)) (fun _ => none) (none : Option (Archive Nat Nat))
        (some ([] : List Char)) (("doc.pdf").data) (("t0").data) =
      { success := false, errorLogged := some (("Failed to extract text").data),
        chunksUsed := [], summaries := [], modiEntry := none, valonFile := none,
        archiveAfter := none } := by
  decide

/-- Claim C2 as amended: for every choice of providers and prior state, a
document whose extracted text is empty is treated as an extraction failure:
"Failed to extract text" is logged, zero chunks and zero summaries are
produced, no ResultEntry and no VALON summary file is written, the archive
is left untouched, and `process_pdf` reports failure. -/
theorem process_pdf_empty_text (ρ δ : Type)
    (analyze : List Char → Nat → Nat → List Char)
    (chatgpt : List Char → List Char) (reflect : List Char → ρ)
    (addMemoryNode : ResultEntry ρ → Option (List Char))
    (priorArchive : Option (Archive ρ δ)) (filename now : List Char) :
    process_pdf analyze chatgpt reflect addMemoryNode priorArchive
        (some []) filename now =
      { success := false, errorLogged := some (("Failed to extract text").data),
        chunksUsed := [], summaries := [], modiEntry := none, valonFile := none,
        archiveAfter := priorArchive } :=
  rfl

/-! ### Archive append (claims C6 and C10) -/

/-- Claim C6: for every prior archive state — including an absent file,
which defaults to the four empty sequences — `update_valon_archive` yields
an archive with the four named sequences in which exactly the new
`{source, reflected, timestamp}` record has been appended to
`symbolic_events`, the other three sequences being those of the prior
(or default) state. -/
theorem update_valon_archive_appends (ρ δ : Type) (prior : Option (Archive ρ δ))
    (filename : List Char) (reflection : ρ) (now : List Char) :
    (update_valon_archive prior filename reflection now).symbolic_events =
        (prior.getD emptyArchive).symbolic_events ++
          [{ source := filename, reflected := reflection, timestamp := now }] ∧
      (update_valon_archive prior filename reflection now).drift_logs =
        (prior.getD emptyArchive).drift_logs ∧
      (update_valon_archive prior filename reflection now).reasoning_blends =
        (prior.getD emptyArchive).reasoning_blends ∧
      (update_valon_archive prior filename reflection now).dream_logs =
        (prior.getD emptyArchive).dream_logs := by
  cases prior <;> simp [update_valon_archive, emptyArchive]

/-- Claim C10: `update_valon_archive` leaves `drift_logs`,
`reasoning_blends`, `dream_logs` and every previously present
`symbolic_events` entry unchanged, grows `symbolic_events` by exactly one,
and appending the same source twice yields two entries rather than
replacing the first. -/
theorem update_valon_archive_frame (ρ δ : Type) (prior : Archive ρ δ)
    (f : List Char) (r r2 : ρ) (t t2 : List Char) :
    (update_valon_archive (some prior) f r t).drift_logs = prior.drift_logs ∧
      (update_valon_archive (some prior) f r t).reasoning_blends =
        prior.reasoning_blends ∧
      (update_valon_archive (some prior) f r t).dream_logs = prior.dream_logs ∧
      (update_valon_archive (some prior) f r t).symbolic_events.length =
        prior.symbolic_events.length + 1 ∧
      (update_valon_archive (some prior) f r t).symbolic_events.take
        prior.symbolic_events.length = prior.symbolic_events ∧
      (update_valon_archive (some (update_valon_archive (some prior) f r t))
          f r2 t2).symbolic_events =
        prior.symbolic_events ++
          [{ source := f, reflected := r, timestamp := t },
           { source := f, reflected := r2, timestamp := t2 }] := by
  refine ⟨rfl, rfl, rfl, by simp [update_valon_archive], ?_, ?_⟩
  · simp [update_valon_archive]
  · simp [update_valon_archive]

/-! ### Result comparison (claim C8) -/

/-- Claim C8: `compare_results` is a total function of the two loaded
records — it succeeds exactly when both records could be read, and when
either is missing or unreadable it reports the failure as a diagnostic line
and returns the failure indicator `false` instead of raising; the input
records are only read through field projections with defaults, never
modified. -/
theorem compare_results_safe (o g : Option CmpRecord) :
    (compare_results o g).1 = (o.isSome && g.isSome) ∧
      ((o.isSome && g.isSome) = false →
        compare_results o g = (false, [CmpLine.compareError])) := by
  cases o <;> cases g <;> simp [compare_results]

/-- Witness for C8 at a concrete input: both files missing. -/
theorem compare_results_safe_witness :
    (compare_results none none).1 =
        ((none : Option CmpRecord).isSome && (none : Option CmpRecord).isSome) ∧
      (((none : Option CmpRecord).isSome && (none : Option CmpRecord).isSome) = false →
        compare_results none none = (false, [CmpLine.compareError])) :=
  compare_results_safe none none

end SyntraPdf
